import Mathlib

/-!
Verification development for the fire detection and alarm system in
`fire_alarm_system.py`.  The per-frame fire detector (`FireDetector`),
its temporal confirmation buffer, and the alarm state machine
(`AlarmManager`) are shallowly embedded as executable Lean functions;
the theorems below settle the specification claims about them.
-/

namespace FireAlarm

/-- FIRE_MIN_AREA from the configuration section: minimum contour area
(a float, compared against `cv2.contourArea`) to consider as fire. -/
def FIRE_MIN_AREA : ℚ := 500

/-- CONSECUTIVE_FRAMES from the configuration section: frames of fire
detection before triggering the alarm (the deque maxlen K). -/
def CONSECUTIVE_FRAMES : ℕ := 1

/-- COOLDOWN_FRAMES from the configuration section: frames without fire
before stopping the alarm (the hysteresis threshold C). -/
def COOLDOWN_FRAMES : ℕ := 30

/-- Region abstracts one external contour of the cleaned fire-color mask,
carrying the two quantities the detector reads off it:
`area = cv2.contourArea(contour)` (a float, modelled as a rational) and
`box = cv2.boundingRect(contour)` as `(x, y, w, h)`. -/
structure Region where
  area : ℚ
  box : ℕ × ℕ × ℕ × ℕ
deriving DecidableEq, Repr

/-- DetectionResult mirrors the dict returned by `FireDetector.detect`
(the `mask` entry, an image consumed only by the renderer, is omitted). -/
structure DetectionResult where
  fire_detected : Bool
  confidence : ℚ
  bounding_boxes : List (ℕ × ℕ × ℕ × ℕ)
  fire_area : ℚ
deriving DecidableEq, Repr

/-- contourLoop embeds the contour-filtering loop of `detect`
(lines 206-215): starting from an empty box list and zero total area,
each contour with `area >= FIRE_MIN_AREA` appends its bounding rect and
adds its area; smaller contours are skipped. -/
def contourLoop (contours : List Region) : List (ℕ × ℕ × ℕ × ℕ) × ℚ :=
  contours.foldl
    (fun acc c =>
      if FIRE_MIN_AREA ≤ c.area then (acc.1 ++ [c.box], acc.2 + c.area) else acc)
    ([], 0)

/-- detect embeds `FireDetector.detect` (lines 170-233) on a frame with the
given channel count and height x width geometry, whose cleaned-mask external
contours are `contours`.  Failure behaviour of the body is made explicit as
`Except.error`: `cv2.cvtColor(frame, cv2.COLOR_BGR2HSV)` on line 183 raises
`cv2.error` unless the input has exactly 3 channels, and for a zero-area
frame the confidence computation on line 219 divides by
`frame_area * 0.1 = 0.0`, which raises `ZeroDivisionError` in Python
(some OpenCV builds reject the empty image even earlier; either way an
exception propagates to the caller).  There is no try/except in `detect`. -/
def detect (channels height width : ℕ) (contours : List Region) :
    Except String DetectionResult :=
  if channels ≠ 3 then
    Except.error "cv2.error: cvtColor: invalid number of channels"
  else
    let bb := contourLoop contours
    let bounding_boxes := bb.1
    let total_fire_area := bb.2
    let frame_area := height * width
    if frame_area = 0 then
      Except.error "ZeroDivisionError: float division by zero"
    else
      Except.ok
        { fire_detected := decide (0 < bounding_boxes.length)
          confidence := min (total_fire_area / ((frame_area : ℚ) * (1 / 10))) 1
          bounding_boxes := bounding_boxes
          fire_area := total_fire_area }

/-- exceptIsOk observes whether an embedded call returned normally. -/
def exceptIsOk : Except String DetectionResult → Bool
  | Except.ok _ => true
  | Except.error _ => false

/-- detectOk reads the result of a successful `detect` call (defaulting to
an all-empty result on the error paths; used only where `detect` is proved
to return `Except.ok`). -/
def detectOk (channels height width : ℕ) (contours : List Region) :
    DetectionResult :=
  (detect channels height width contours).toOption.getD
    { fire_detected := false, confidence := 0, bounding_boxes := [], fire_area := 0 }

/-- pushHistory embeds `self.detection_history.append(fire_detected)` on the
`deque(maxlen=CONSECUTIVE_FRAMES)`: appending to a full deque drops the
oldest (leftmost) entry. -/
def pushHistory (h : List Bool) (b : Bool) : List Bool :=
  if h.length < CONSECUTIVE_FRAMES then h ++ [b] else h.tail ++ [b]

/-- isFireConfirmed embeds `FireDetector.is_fire_confirmed` (lines 235-242):
false while the history is shorter than CONSECUTIVE_FRAMES, otherwise the
conjunction of all entries. -/
def isFireConfirmed (h : List Bool) : Bool :=
  if h.length < CONSECUTIVE_FRAMES then false else h.all id

/-- detectionHistory is the confirmation-buffer contents after a sequence of
`detect` calls whose `fire_detected` results are `bs`, starting from the
empty deque built in `FireDetector.__init__`. -/
def detectionHistory (bs : List Bool) : List Bool :=
  bs.foldl pushHistory []

/-- AlarmState collects the mutable fields of `AlarmManager` that the alarm
logic reads or writes: `is_playing`, `alarm_active`, `sound_enabled`,
`no_fire_counter`, and the `sound_loaded` flag fixed by `__init__`
(`sound_path`, `audio_process` and `audio_thread` are backend handles with
no influence on these fields). -/
structure AlarmState where
  is_playing : Bool
  alarm_active : Bool
  sound_enabled : Bool
  no_fire_counter : ℕ
  sound_loaded : Bool
deriving DecidableEq, Repr

/-- initAlarm embeds `AlarmManager.__init__` (lines 259-294): not playing,
alarm inactive, sound enabled, zero no-fire counter; `sound_loaded` is true
exactly when the sound file exists and an audio backend (pygame or Windows
native) accepted it, false otherwise. -/
def initAlarm (sound_loaded : Bool) : AlarmState :=
  { is_playing := false
    alarm_active := false
    sound_enabled := true
    no_fire_counter := 0
    sound_loaded := sound_loaded }

/-- playSound embeds `AlarmManager._play_sound` (lines 325-341): an early
return when sound is disabled, the sound is not loaded, or playback is
already running; otherwise playback starts and `is_playing` becomes true.
(`sound_loaded = true` implies an audio method was selected in `__init__`,
and every backend branch — pygame success, pygame-exception fallback to
`_play_windows_audio`, or Windows native — ends with `is_playing = True`.) -/
def playSound (s : AlarmState) : AlarmState :=
  if !s.sound_enabled || !s.sound_loaded || s.is_playing then s
  else { s with is_playing := true }

/-- stopSound embeds `AlarmManager._stop_sound` (lines 377-399): an early
return when nothing is playing; otherwise the backend is stopped (pygame
music stop and/or subprocess terminate) and `is_playing` becomes false. -/
def stopSound (s : AlarmState) : AlarmState :=
  if !s.is_playing then s else { s with is_playing := false }

/-- trigger_alarm embeds `AlarmManager.trigger_alarm` (lines 296-302): when
not already active, set `alarm_active`, zero the no-fire counter, and call
`_play_sound`. -/
def trigger_alarm (s : AlarmState) : AlarmState :=
  if !s.alarm_active then
    playSound { s with alarm_active := true, no_fire_counter := 0 }
  else s

/-- stop_alarm embeds `AlarmManager.stop_alarm` (lines 304-309): when
active, clear `alarm_active` and call `_stop_sound`. -/
def stop_alarm (s : AlarmState) : AlarmState :=
  if s.alarm_active then stopSound { s with alarm_active := false } else s

/-- update embeds `AlarmManager.update` (lines 311-323): on a confirmed
fire, zero the no-fire counter and trigger the alarm; otherwise, while the
alarm is active, increment the counter and stop the alarm once it reaches
COOLDOWN_FRAMES. -/
def update (s : AlarmState) (fire_confirmed : Bool) : AlarmState :=
  if fire_confirmed then
    trigger_alarm { s with no_fire_counter := 0 }
  else if s.alarm_active then
    let s1 := { s with no_fire_counter := s.no_fire_counter + 1 }
    if COOLDOWN_FRAMES ≤ s1.no_fire_counter then stop_alarm s1 else s1
  else s

/-- toggle_sound embeds `AlarmManager.toggle_sound` (lines 401-408): flip
`sound_enabled`; when now disabled, stop the sound; when re-enabled while
the alarm is active, start playing again. -/
def toggle_sound (s : AlarmState) : AlarmState :=
  let s1 := { s with sound_enabled := !s.sound_enabled }
  if !s1.sound_enabled then stopSound s1
  else if s1.alarm_active then playSound s1
  else s1

/-- AlarmOp enumerates the public operations of `AlarmManager` (`cleanup`
on line 410 calls `_stop_sound`). -/
inductive AlarmOp where
  | updateOp (fire_confirmed : Bool)
  | toggleOp
  | triggerOp
  | stopOp
  | cleanupOp
deriving DecidableEq, Repr

/-- alarmStep applies one `AlarmManager` operation. -/
def alarmStep (s : AlarmState) : AlarmOp → AlarmState
  | AlarmOp.updateOp b => update s b
  | AlarmOp.toggleOp => toggle_sound s
  | AlarmOp.triggerOp => trigger_alarm s
  | AlarmOp.stopOp => stop_alarm s
  | AlarmOp.cleanupOp => stopSound s

/-- runAlarm is the alarm state after a sequence of `AlarmManager`
operations from a freshly constructed manager. -/
def runAlarm (sound_loaded : Bool) (ops : List AlarmOp) : AlarmState :=
  ops.foldl alarmStep (initAlarm sound_loaded)

/-- runUpdates is the alarm state after a sequence of `update` calls from a
freshly constructed manager (the claim C1 quantifies over only these). -/
def runUpdates (sound_loaded : Bool) (bs : List Bool) : AlarmState :=
  bs.foldl update (initAlarm sound_loaded)

/-- SystemState pairs the detector's confirmation buffer with the alarm
manager state, as held by `FireAlarmSystem`. -/
structure SystemState where
  hist : List Bool
  alarm : AlarmState
deriving DecidableEq, Repr

/-- SysOp enumerates the events of the main loop in `FireAlarmSystem.run`:
processing one frame whose per-frame detection outcome (the `fire_detected`
field of `detect`) is `fire_raw`; the S key (`toggle_sound`); and the R key
(`detector.reset()` followed by `alarm_manager.stop_alarm()`,
lines 892-894). -/
inductive SysOp where
  | frame (fire_raw : Bool)
  | toggleKey
  | resetKey
deriving DecidableEq, Repr

/-- resetSystem embeds the operator-reset path (R key, lines 892-894):
`FireDetector.reset` clears the detection history (lines 244-246) and
`AlarmManager.stop_alarm` is called. -/
def resetSystem (s : SystemState) : SystemState :=
  { hist := [], alarm := stop_alarm s.alarm }

/-- sysStep applies one main-loop event: a frame pushes its detection
outcome into the buffer, then `update` receives `is_fire_confirmed()`
(lines 855-861). -/
def sysStep (s : SystemState) : SysOp → SystemState
  | SysOp.frame b =>
      let h := pushHistory s.hist b
      { hist := h, alarm := update s.alarm (isFireConfirmed h) }
  | SysOp.toggleKey => { s with alarm := toggle_sound s.alarm }
  | SysOp.resetKey => resetSystem s

/-- initSystem is the system state after `FireAlarmSystem.__init__`. -/
def initSystem (sound_loaded : Bool) : SystemState :=
  { hist := [], alarm := initAlarm sound_loaded }

/-- runSystem is the system state after a sequence of main-loop events. -/
def runSystem (sound_loaded : Bool) (ops : List SysOp) : SystemState :=
  ops.foldl sysStep (initSystem sound_loaded)

/-- AlarmInv collects the two invariants every `AlarmManager` operation
maintains: playback is live only while the alarm is active, and an active
alarm has a no-fire streak strictly below COOLDOWN_FRAMES. -/
def AlarmInv (s : AlarmState) : Prop :=
  (s.is_playing = true → s.alarm_active = true) ∧
  (s.alarm_active = true → s.no_fire_counter < COOLDOWN_FRAMES)

lemma alarmInv_init (l : Bool) : AlarmInv (initAlarm l) := by
  constructor <;> simp [initAlarm]

lemma alarmInv_update (s : AlarmState) (h : AlarmInv s) (b : Bool) :
    AlarmInv (update s b) := by
  obtain ⟨h1, h2⟩ := h
  rcases s with ⟨ip, aa, se, c, sl⟩
  cases b <;> cases aa <;> cases ip <;> cases se <;> cases sl <;>
    simp_all [update, trigger_alarm, stop_alarm, playSound, stopSound, AlarmInv,
      COOLDOWN_FRAMES] <;>
    (try split_ifs) <;> simp_all <;> omega

lemma alarmInv_toggle (s : AlarmState) (h : AlarmInv s) :
    AlarmInv (toggle_sound s) := by
  obtain ⟨h1, h2⟩ := h
  rcases s with ⟨ip, aa, se, c, sl⟩
  cases aa <;> cases ip <;> cases se <;> cases sl <;>
    simp_all [toggle_sound, playSound, stopSound, AlarmInv, COOLDOWN_FRAMES]

lemma alarmInv_trigger (s : AlarmState) (h : AlarmInv s) :
    AlarmInv (trigger_alarm s) := by
  obtain ⟨h1, h2⟩ := h
  rcases s with ⟨ip, aa, se, c, sl⟩
  cases aa <;> cases ip <;> cases se <;> cases sl <;>
    simp_all [trigger_alarm, playSound, AlarmInv, COOLDOWN_FRAMES]

lemma alarmInv_stop (s : AlarmState) (h : AlarmInv s) :
    AlarmInv (stop_alarm s) := by
  obtain ⟨h1, h2⟩ := h
  rcases s with ⟨ip, aa, se, c, sl⟩
  cases aa <;> cases ip <;>
    simp_all [stop_alarm, stopSound, AlarmInv, COOLDOWN_FRAMES]

lemma alarmInv_stopSound (s : AlarmState) (h : AlarmInv s) :
    AlarmInv (stopSound s) := by
  obtain ⟨h1, h2⟩ := h
  rcases s with ⟨ip, aa, se, c, sl⟩
  cases ip <;> simp_all [stopSound, AlarmInv]

lemma alarmInv_alarmStep (s : AlarmState) (h : AlarmInv s) (op : AlarmOp) :
    AlarmInv (alarmStep s op) := by
  cases op with
  | updateOp b => exact alarmInv_update s h b
  | toggleOp => exact alarmInv_toggle s h
  | triggerOp => exact alarmInv_trigger s h
  | stopOp => exact alarmInv_stop s h
  | cleanupOp => exact alarmInv_stopSound s h

lemma alarmInv_foldl_update :
    ∀ (bs : List Bool) (s : AlarmState), AlarmInv s → AlarmInv (bs.foldl update s)
  | [], _, h => h
  | b :: bs, s, h => alarmInv_foldl_update bs (update s b) (alarmInv_update s h b)

lemma alarmInv_runUpdates (l : Bool) (bs : List Bool) :
    AlarmInv (runUpdates l bs) :=
  alarmInv_foldl_update bs (initAlarm l) (alarmInv_init l)

lemma alarmInv_foldl_sysStep :
    ∀ (ops : List SysOp) (s : SystemState), AlarmInv s.alarm →
      AlarmInv ((ops.foldl sysStep s).alarm)
  | [], _, h => h
  | op :: ops, s, h => by
      refine alarmInv_foldl_sysStep ops (sysStep s op) ?_
      cases op with
      | frame b => exact alarmInv_update s.alarm h _
      | toggleKey => exact alarmInv_toggle s.alarm h
      | resetKey => exact alarmInv_stop s.alarm h

lemma alarmInv_runSystem (l : Bool) (ops : List SysOp) :
    AlarmInv (runSystem l ops).alarm :=
  alarmInv_foldl_sysStep ops (initSystem l) (alarmInv_init l)

lemma update_true_active (s : AlarmState) : (update s true).alarm_active = true := by
  rcases s with ⟨ip, aa, se, c, sl⟩
  cases aa <;> cases ip <;> cases se <;> cases sl <;>
    simp [update, trigger_alarm, playSound]

lemma update_true_counter (s : AlarmState) :
    (update s true).no_fire_counter = 0 := by
  rcases s with ⟨ip, aa, se, c, sl⟩
  cases aa <;> cases ip <;> cases se <;> cases sl <;>
    simp [update, trigger_alarm, playSound]

lemma update_false_active_counter (s : AlarmState) (ha : s.alarm_active = true) :
    (update s false).no_fire_counter = s.no_fire_counter + 1 := by
  rcases s with ⟨ip, aa, se, c, sl⟩
  simp only at ha
  subst ha
  cases ip <;>
    simp [update, stop_alarm, stopSound] <;>
    split_ifs <;> simp

lemma update_false_active_state (s : AlarmState) (ha : s.alarm_active = true) :
    (update s false).alarm_active = decide (s.no_fire_counter + 1 < COOLDOWN_FRAMES) := by
  rcases s with ⟨ip, aa, se, c, sl⟩
  simp only at ha
  subst ha
  cases ip <;>
    simp [update, stop_alarm, stopSound, COOLDOWN_FRAMES] <;>
    split_ifs <;> simp_all <;> omega

lemma update_false_idle (s : AlarmState) (ha : s.alarm_active = false) :
    update s false = s := by
  simp [update, ha]

lemma alarmStep_inert (s : AlarmState) (op : AlarmOp)
    (h1 : s.sound_loaded = false) (h2 : s.is_playing = false) :
    (alarmStep s op).sound_loaded = false ∧ (alarmStep s op).is_playing = false := by
  rcases s with ⟨ip, aa, se, c, sl⟩
  simp only at h1 h2
  subst h1
  subst h2
  cases op with
  | updateOp b =>
      cases b <;> cases aa <;>
        simp [alarmStep, update, trigger_alarm, stop_alarm, playSound, stopSound] <;>
        split_ifs <;> simp
  | toggleOp =>
      cases se <;> cases aa <;>
        simp [alarmStep, toggle_sound, playSound, stopSound]
  | triggerOp => cases aa <;> simp [alarmStep, trigger_alarm, playSound]
  | stopOp => cases aa <;> simp [alarmStep, stop_alarm, stopSound]
  | cleanupOp => simp [alarmStep, stopSound]

lemma inert_foldl :
    ∀ (ops : List AlarmOp) (s : AlarmState),
      s.sound_loaded = false → s.is_playing = false →
      (ops.foldl alarmStep s).sound_loaded = false ∧
        (ops.foldl alarmStep s).is_playing = false
  | [], _, h1, h2 => ⟨h1, h2⟩
  | op :: ops, s, h1, h2 =>
      inert_foldl ops (alarmStep s op)
        (alarmStep_inert s op h1 h2).1 (alarmStep_inert s op h1 h2).2

lemma playSound_not_loaded (s : AlarmState) (h : s.sound_loaded = false) :
    playSound s = s := by
  simp [playSound, h]

lemma stop_alarm_fields (s : AlarmState) (h : AlarmInv s) :
    (stop_alarm s).alarm_active = false ∧ (stop_alarm s).is_playing = false ∧
      (stop_alarm s).sound_enabled = s.sound_enabled ∧
      (stop_alarm s).no_fire_counter = s.no_fire_counter := by
  obtain ⟨h1, h2⟩ := h
  rcases s with ⟨ip, aa, se, c, sl⟩
  cases aa <;> cases ip <;> simp_all [stop_alarm, stopSound]

/-- C1: starting from Idle with streak 0, along every sequence of calls to
`AlarmManager.update`: `update(true)` moves to (or keeps) Active and resets
the no-fire streak to 0; `update(false)` while Active increments the
streak, keeps Active exactly while the new streak is below COOLDOWN_FRAMES
(default 30) and moves to Idle exactly when the streak reaches
COOLDOWN_FRAMES; `update(false)` while Idle leaves the state and the streak
unchanged. -/
theorem alarm_update_transitions (l : Bool) (bs : List Bool) :
    ((update (runUpdates l bs) true).alarm_active = true ∧
      (update (runUpdates l bs) true).no_fire_counter = 0) ∧
    ((runUpdates l bs).alarm_active = true →
      (update (runUpdates l bs) false).no_fire_counter
          = (runUpdates l bs).no_fire_counter + 1 ∧
      ((update (runUpdates l bs) false).alarm_active = true ↔
        (runUpdates l bs).no_fire_counter + 1 < COOLDOWN_FRAMES) ∧
      ((update (runUpdates l bs) false).alarm_active = false ↔
        (runUpdates l bs).no_fire_counter + 1 = COOLDOWN_FRAMES)) ∧
    ((runUpdates l bs).alarm_active = false →
      update (runUpdates l bs) false = runUpdates l bs) := by
  obtain ⟨hp, hc⟩ := alarmInv_runUpdates l bs
  refine ⟨⟨update_true_active _, update_true_counter _⟩, ?_, update_false_idle _⟩
  intro ha
  have hcnt := update_false_active_counter _ ha
  have hst := update_false_active_state _ ha
  have hlt := hc ha
  refine ⟨hcnt, ?_, ?_⟩
  · rw [hst]
    simp
  · rw [hst]
    simp only [decide_eq_false_iff_not, not_lt]
    omega

/-- alarm_update_transitions applied at the concrete run that performs one
confirmed-fire update (reaching Active with streak 0) and then one
no-fire update. -/
theorem alarm_update_transitions_witness :
    (update (runUpdates true [true]) false).no_fire_counter
        = (runUpdates true [true]).no_fire_counter + 1 ∧
    ((update (runUpdates true [true]) false).alarm_active = true ↔
      (runUpdates true [true]).no_fire_counter + 1 < COOLDOWN_FRAMES) ∧
    ((update (runUpdates true [true]) false).alarm_active = false ↔
      (runUpdates true [true]).no_fire_counter + 1 = COOLDOWN_FRAMES) :=
  (alarm_update_transitions true [true]).2.1 (by decide)

/-- C6: at most one live audio session exists: `_play_sound` while playback
is live is a no-op, `_stop_sound` with no live playback is a no-op, and
stopping twice in a row leaves the playing flag false after each call. -/
theorem audio_session_at_most_one (s : AlarmState) :
    (s.is_playing = true → playSound s = s) ∧
    (s.is_playing = false → stopSound s = s) ∧
    (stopSound s).is_playing = false ∧
    (stopSound (stopSound s)).is_playing = false := by
  rcases s with ⟨ip, aa, se, c, sl⟩
  cases ip <;> simp [playSound, stopSound]

/-- audio_session_at_most_one applied at a concrete state with live
playback: starting the session again changes nothing. -/
theorem audio_session_at_most_one_witness :
    playSound
        { is_playing := true, alarm_active := true, sound_enabled := true,
          no_fire_counter := 0, sound_loaded := true }
      = { is_playing := true, alarm_active := true, sound_enabled := true,
          no_fire_counter := 0, sound_loaded := true } :=
  (audio_session_at_most_one _).1 rfl

/-- C7: if the alarm sound could not be loaded at construction time, then
after every sequence of `AlarmManager` operations the audio stays inert
(`_play_sound` is a no-op and the playing flag stays false), while
`update(true)` still makes the alarm state Active. -/
theorem sound_load_failure_inert (ops : List AlarmOp) :
    (runAlarm false ops).is_playing = false ∧
    playSound (runAlarm false ops) = runAlarm false ops ∧
    (update (runAlarm false ops) true).is_playing = false ∧
    (update (runAlarm false ops) true).alarm_active = true := by
  obtain ⟨hl, hp⟩ := inert_foldl ops (initAlarm false) rfl rfl
  refine ⟨hp, playSound_not_loaded _ hl, ?_, update_true_active _⟩
  exact (alarmStep_inert (runAlarm false ops) (AlarmOp.updateOp true) hl hp).2

/-- C4 counterexample: after one confirmed-fire frame and three no-fire
frames the alarm is Active with no-fire streak 3; the operator reset
(detector reset plus `stop_alarm`) leaves the streak at 3, not 0. -/
theorem reset_clears_streak_cex :
    (resetSystem (runSystem true
        [SysOp.frame true, SysOp.frame false, SysOp.frame false,
          SysOp.frame false])).alarm.no_fire_counter ≠ 0 := by
  decide

/-- surviving is the sublist of contours that pass the minimum-area filter
(`area >= FIRE_MIN_AREA` on line 212). -/
def surviving (cs : List Region) : List Region :=
  cs.filter (fun c => FIRE_MIN_AREA ≤ c.area)

lemma contourLoop_foldl (cs : List Region) :
    ∀ acc : List (ℕ × ℕ × ℕ × ℕ) × ℚ,
      cs.foldl
          (fun acc c =>
            if FIRE_MIN_AREA ≤ c.area then (acc.1 ++ [c.box], acc.2 + c.area) else acc)
          acc
        = (acc.1 ++ (surviving cs).map Region.box,
            acc.2 + ((surviving cs).map Region.area).sum) := by
  induction cs with
  | nil => intro acc; simp [surviving]
  | cons c cs ih =>
      intro acc
      by_cases h : FIRE_MIN_AREA ≤ c.area
      · simp [surviving, List.filter_cons, h, ih, add_assoc]
      · simp [surviving, List.filter_cons, h, ih]

lemma contourLoop_eq (cs : List Region) :
    contourLoop cs
      = ((surviving cs).map Region.box, ((surviving cs).map Region.area).sum) := by
  have h := contourLoop_foldl cs ([], 0)
  simpa [contourLoop] using h

lemma detect_ok (h w : ℕ) (cs : List Region) (hpos : 0 < h * w) :
    detect 3 h w cs = Except.ok
      { fire_detected := decide (0 < ((surviving cs).map Region.box).length)
        confidence :=
          min ((((surviving cs).map Region.area).sum)
            / (((h * w : ℕ) : ℚ) * (1 / 10))) 1
        bounding_boxes := (surviving cs).map Region.box
        fire_area := ((surviving cs).map Region.area).sum } := by
  have hne : h * w ≠ 0 := by omega
  simp [detect, contourLoop_eq, hne]

lemma detectOk_eq (h w : ℕ) (cs : List Region) (hpos : 0 < h * w) :
    detectOk 3 h w cs
      = { fire_detected := decide (0 < ((surviving cs).map Region.box).length)
          confidence :=
            min ((((surviving cs).map Region.area).sum)
              / (((h * w : ℕ) : ℚ) * (1 / 10))) 1
          bounding_boxes := (surviving cs).map Region.box
          fire_area := ((surviving cs).map Region.area).sum } := by
  simp [detectOk, detect_ok h w cs hpos, Except.toOption]

lemma surviving_idem (cs : List Region) : surviving (surviving cs) = surviving cs := by
  simp [surviving, List.filter_filter]

lemma le_sum_of_mem_all (l : List ℚ) (hne : l ≠ [])
    (hall : ∀ x ∈ l, FIRE_MIN_AREA ≤ x) : FIRE_MIN_AREA ≤ l.sum := by
  cases l with
  | nil => exact absurd rfl hne
  | cons a t =>
      have ha := hall a (List.mem_cons_self a t)
      have ht : (0 : ℚ) ≤ t.sum := by
        refine List.sum_nonneg ?_
        intro x hx
        have hx5 := hall x (List.mem_cons_of_mem a hx)
        have h5 : (0 : ℚ) ≤ FIRE_MIN_AREA := by norm_num [FIRE_MIN_AREA]
        linarith
      rw [List.sum_cons]
      linarith

lemma pushHistory_small (h : List Bool) (b : Bool)
    (hh : h.length ≤ CONSECUTIVE_FRAMES) : pushHistory h b = [b] := by
  rcases h with _ | ⟨a, _ | ⟨a2, t⟩⟩
  · simp [pushHistory, CONSECUTIVE_FRAMES]
  · simp [pushHistory, CONSECUTIVE_FRAMES]
  · exfalso
    simp [CONSECUTIVE_FRAMES] at hh

lemma detectionHistory_length (bs : List Bool) :
    (detectionHistory bs).length ≤ CONSECUTIVE_FRAMES := by
  suffices h : ∀ (cs : List Bool) (h0 : List Bool), h0.length ≤ CONSECUTIVE_FRAMES →
      (cs.foldl pushHistory h0).length ≤ CONSECUTIVE_FRAMES by
    exact h bs [] (by simp)
  intro cs
  induction cs with
  | nil => intro h0 hh; exact hh
  | cons b cs ih =>
      intro h0 hh
      rw [List.foldl_cons]
      refine ih _ ?_
      rw [pushHistory_small h0 b hh]
      simp [CONSECUTIVE_FRAMES]

lemma detectionHistory_concat (bs : List Bool) (b : Bool) :
    detectionHistory (bs ++ [b]) = [b] := by
  rw [detectionHistory, List.foldl_append]
  simp only [List.foldl_cons, List.foldl_nil]
  exact pushHistory_small _ b (detectionHistory_length bs)

/-- C2: for every sequence of `detect` calls with per-frame outcomes `bs`,
`is_fire_confirmed` is true iff the confirmation buffer is at full capacity
CONSECUTIVE_FRAMES with every entry true; it is false while fewer than
CONSECUTIVE_FRAMES calls happened; it equals the conjunction of the last
CONSECUTIVE_FRAMES raw outcomes (so one false there makes it false); and it
becomes true again after CONSECUTIVE_FRAMES further consecutive true
outcomes. -/
theorem fire_confirmation_characterization (bs : List Bool) :
    (isFireConfirmed (detectionHistory bs)
        = (decide ((detectionHistory bs).length = CONSECUTIVE_FRAMES)
            && (detectionHistory bs).all id)) ∧
    (bs.length < CONSECUTIVE_FRAMES → isFireConfirmed (detectionHistory bs) = false) ∧
    (isFireConfirmed (detectionHistory bs)
        = (decide (CONSECUTIVE_FRAMES ≤ bs.length)
            && (bs.reverse.take CONSECUTIVE_FRAMES).all id)) ∧
    (isFireConfirmed (detectionHistory (bs ++ List.replicate CONSECUTIVE_FRAMES true))
        = true) := by
  have h4 : isFireConfirmed
      (detectionHistory (bs ++ List.replicate CONSECUTIVE_FRAMES true)) = true := by
    have hrep : List.replicate CONSECUTIVE_FRAMES true = [true] := by
      simp [CONSECUTIVE_FRAMES]
    rw [hrep, detectionHistory_concat]
    simp [isFireConfirmed, CONSECUTIVE_FRAMES]
  rcases List.eq_nil_or_concat bs with rfl | ⟨ys, b, rfl⟩
  · exact ⟨by simp [detectionHistory, isFireConfirmed, CONSECUTIVE_FRAMES],
      fun _ => by simp [detectionHistory, isFireConfirmed, CONSECUTIVE_FRAMES], by
        simp [detectionHistory, isFireConfirmed, CONSECUTIVE_FRAMES], h4⟩
  · simp only [List.concat_eq_append] at h4 ⊢
    have hd := detectionHistory_concat ys b
    refine ⟨?_, ?_, ?_, h4⟩
    · rw [hd]
      simp [isFireConfirmed, CONSECUTIVE_FRAMES]
    · intro hlen
      exfalso
      simp [CONSECUTIVE_FRAMES] at hlen
    · rw [hd]
      simp [isFireConfirmed, CONSECUTIVE_FRAMES]

/-- fire_confirmation_characterization applied to the empty call sequence:
before any `detect` call the fire is not confirmed. -/
theorem fire_confirmation_characterization_witness :
    isFireConfirmed (detectionHistory []) = false :=
  (fire_confirmation_characterization []).2.1 (by decide)

/-- C3 counterexample: on a 1-channel 480x640 frame `detect` raises
`cv2.error` out of `cvtColor`, and on a zero-sized 3-channel frame the
confidence division raises `ZeroDivisionError`; neither malformed frame
produces a no-fire detection result. -/
theorem detect_malformed_raises_cex :
    detect 1 480 640 [] = Except.error "cv2.error: cvtColor: invalid number of channels" ∧
    detect 3 0 0 [] = Except.error "ZeroDivisionError: float division by zero" :=
  ⟨rfl, rfl⟩

/-- C3 (amended): a malformed frame (wrong channel count, or zero-sized)
makes `detect` propagate an exception to its caller rather than return a
no-fire result; only well-formed 3-channel positive-area frames return a
detection result normally. -/
theorem detect_malformed_propagates (channels h w : ℕ) (cs : List Region) :
    (channels ≠ 3 ∨ h * w = 0 → exceptIsOk (detect channels h w cs) = false) ∧
    (channels = 3 → 0 < h * w →
      detect channels h w cs = Except.ok (detectOk channels h w cs)) := by
  constructor
  · intro hmal
    by_cases hch : channels = 3
    · subst hch
      rcases hmal with h3 | h0
      · exact absurd rfl h3
      · simp [detect, h0, exceptIsOk]
    · simp [detect, hch, exceptIsOk]
  · intro hch hpos
    subst hch
    simp [detectOk, detect_ok h w cs hpos, Except.toOption]

/-- detect_malformed_propagates applied to a concrete 1-channel frame:
the call does not return normally. -/
theorem detect_malformed_propagates_witness :
    exceptIsOk (detect 1 480 640 []) = false :=
  (detect_malformed_propagates 1 480 640 []).1 (Or.inl (by decide))

/-- specConfidence is the specification's formula, written from the spec
words for comparison with the code's computation: min(total surviving area
/ (frame area × 0.1), 1.0). -/
def specConfidence (total_surviving_area frame_area : ℚ) : ℚ :=
  min (total_surviving_area / (frame_area * (1 / 10))) 1

/-- C5: on every well-formed frame the confidence returned by `detect`
equals min(total surviving area / (frame area × 0.1), 1.0); surviving area
equal to 10 percent of the frame area gives confidence 1, 5 percent gives
1/2, and confidence never exceeds 1. -/
theorem detect_confidence_formula (h w : ℕ) (cs : List Region) (hpos : 0 < h * w) :
    ((detectOk 3 h w cs).confidence
        = specConfidence (detectOk 3 h w cs).fire_area ((h * w : ℕ) : ℚ)) ∧
    ((detectOk 3 h w cs).fire_area = ((h * w : ℕ) : ℚ) * (1 / 10) →
        (detectOk 3 h w cs).confidence = 1) ∧
    ((detectOk 3 h w cs).fire_area = ((h * w : ℕ) : ℚ) * (1 / 20) →
        (detectOk 3 h w cs).confidence = 1 / 2) ∧
    (detectOk 3 h w cs).confidence ≤ 1 := by
  have hfa : (0 : ℚ) < ((h * w : ℕ) : ℚ) := by
    exact_mod_cast hpos
  have hne : ((h * w : ℕ) : ℚ) * (1 / 10) ≠ 0 := by positivity
  rw [detectOk_eq h w cs hpos]
  refine ⟨rfl, ?_, ?_, min_le_right _ _⟩
  · intro hS
    simp only at hS
    simp only [hS, div_self hne, min_self]
  · intro hS
    simp only at hS
    have hq : (((h * w : ℕ) : ℚ) * (1 / 20)) / (((h * w : ℕ) : ℚ) * (1 / 10)) = 1 / 2 := by
      rw [div_eq_iff hne]
      ring
    simp only [hS, hq]
    norm_num

/-- detect_confidence_formula applied to a concrete 480x640 frame with one
surviving region of area 30720 (exactly 10 percent of 307200 pixels):
confidence is 1. -/
theorem detect_confidence_formula_witness :
    (detectOk 3 480 640 [{ area := 30720, box := (0, 0, 192, 160) }]).confidence = 1 := by
  refine (detect_confidence_formula 480 640 _ (by norm_num)).2.1 ?_
  rw [detectOk_eq 480 640 _ (by norm_num)]
  norm_num [surviving, FIRE_MIN_AREA]

/-- C9: on every well-formed frame, the bounding boxes are exactly those of
the regions passing the minimum-area filter, the fire area is the sum of
exactly those regions' areas, regions below FIRE_MIN_AREA change nothing in
the result, and a frame with only sub-threshold regions reports no fire. -/
theorem small_regions_excluded (h w : ℕ) (cs : List Region) (hpos : 0 < h * w) :
    ((detectOk 3 h w cs).bounding_boxes = (surviving cs).map Region.box) ∧
    ((detectOk 3 h w cs).fire_area = ((surviving cs).map Region.area).sum) ∧
    (detectOk 3 h w cs = detectOk 3 h w (surviving cs)) ∧
    ((∀ c ∈ cs, c.area < FIRE_MIN_AREA) → (detectOk 3 h w cs).fire_detected = false) := by
  rw [detectOk_eq h w cs hpos, detectOk_eq h w (surviving cs) hpos]
  refine ⟨rfl, rfl, ?_, ?_⟩
  · rw [surviving_idem]
  · intro hall
    have hnil : surviving cs = [] := by
      rw [surviving, List.filter_eq_nil_iff]
      intro c hc
      simpa using not_le.mpr (hall c hc)
    simp [hnil]

/-- small_regions_excluded applied to a concrete frame with one region of
area 100 (below the threshold 500): no fire is reported. -/
theorem small_regions_excluded_witness :
    (detectOk 3 480 640 [{ area := 100, box := (1, 2, 3, 4) }]).fire_detected = false := by
  refine (small_regions_excluded 480 640 _ (by norm_num)).2.2.2 ?_
  intro c hc
  rw [List.mem_singleton.mp hc]
  norm_num [FIRE_MIN_AREA]

/-- C10: on every well-formed frame, when `detect` reports fire the
bounding-box list is non-empty, the fire area is at least FIRE_MIN_AREA,
and the confidence is strictly positive. -/
theorem fire_detected_implies_bounds (h w : ℕ) (cs : List Region)
    (hpos : 0 < h * w) (hfire : (detectOk 3 h w cs).fire_detected = true) :
    (detectOk 3 h w cs).bounding_boxes ≠ [] ∧
    FIRE_MIN_AREA ≤ (detectOk 3 h w cs).fire_area ∧
    0 < (detectOk 3 h w cs).confidence := by
  rw [detectOk_eq h w cs hpos] at hfire ⊢
  simp only [decide_eq_true_eq, List.length_map] at hfire
  have hne : surviving cs ≠ [] := List.length_pos.mp hfire
  have harea : FIRE_MIN_AREA ≤ ((surviving cs).map Region.area).sum := by
    refine le_sum_of_mem_all _ ?_ ?_
    · simpa [List.map_eq_nil_iff] using hne
    · intro x hx
      obtain ⟨c, hc, rfl⟩ := List.mem_map.mp hx
      have := (List.mem_filter.mp hc).2
      simpa using this
  have hS : (0 : ℚ) < ((surviving cs).map Region.area).sum := by
    have : (0 : ℚ) < FIRE_MIN_AREA := by norm_num [FIRE_MIN_AREA]
    linarith
  have hfa : (0 : ℚ) < ((h * w : ℕ) : ℚ) := by exact_mod_cast hpos
  refine ⟨?_, harea, ?_⟩
  · simpa [List.map_eq_nil_iff] using hne
  · exact lt_min (div_pos hS (by positivity)) one_pos

/-- fire_detected_implies_bounds applied to a concrete frame with one
region of area 600. -/
theorem fire_detected_implies_bounds_witness :
    (detectOk 3 480 640 [{ area := 600, box := (0, 0, 10, 10) }]).bounding_boxes ≠ [] ∧
    FIRE_MIN_AREA ≤ (detectOk 3 480 640 [{ area := 600, box := (0, 0, 10, 10) }]).fire_area ∧
    0 < (detectOk 3 480 640 [{ area := 600, box := (0, 0, 10, 10) }]).confidence := by
  refine fire_detected_implies_bounds 480 640 _ (by norm_num) ?_
  rw [detectOk_eq 480 640 _ (by norm_num)]
  norm_num [surviving, FIRE_MIN_AREA]

/-- C4 (amended): for every reachable prior state of the system, the
operator reset leaves the alarm Idle with no live playback, empties the
confirmation buffer, keeps the sound-enabled flag, and leaves the no-fire
streak counter unchanged (it is not cleared to 0). -/
theorem reset_postcondition (l : Bool) (ops : List SysOp) :
    (resetSystem (runSystem l ops)).alarm.alarm_active = false ∧
    (resetSystem (runSystem l ops)).alarm.is_playing = false ∧
    (resetSystem (runSystem l ops)).hist = [] ∧
    (resetSystem (runSystem l ops)).alarm.sound_enabled
        = (runSystem l ops).alarm.sound_enabled ∧
    (resetSystem (runSystem l ops)).alarm.no_fire_counter
        = (runSystem l ops).alarm.no_fire_counter := by
  obtain ⟨h1, h2, h3, h4⟩ := stop_alarm_fields _ (alarmInv_runSystem l ops)
  exact ⟨h1, h2, rfl, h3, h4⟩

end FireAlarm
